import Mathlib

set_option maxHeartbeats 1000000
set_option maxRecDepth 10000

/-!
Verification of the TimeSync data-logger firmware (src/device.ino).

The embedding models the core pipeline of the sketch: the I2C multiplexer
channel selection (`tca_select`), the BLE time-sync handler
(`setTimeFromString` and the characteristic callback `onWrite`), the record
buffering and SD flush (`bufferAppend`, `writeBufferToSD`), and the
acquisition loop (`perChannel`, `runChs`, `loopStep`).  External
collaborators (Wire, the AS7341 driver, SD, the libc clock) are modelled as
environment inputs and emitted traces, following the interfaces in the
design document.
-/

namespace TimeSync

/-! ### Arduino String primitives used by the sketch -/

/-- The decimal digit character for `n < 10` (ASCII `'0' + n`). -/
def digitChar (n : Nat) : Char := Char.ofNat (48 + n)

/-- Two-digit zero-padded decimal rendering (as produced by strftime `%m` etc.). -/
def pad2 (n : Nat) : String := ⟨[digitChar (n / 10 % 10), digitChar (n % 10)]⟩

/-- Four-digit decimal rendering (as produced by strftime `%Y` for 1000-9999). -/
def pad4 (n : Nat) : String :=
  ⟨[digitChar (n / 1000 % 10), digitChar (n / 100 % 10),
    digitChar (n / 10 % 10), digitChar (n % 10)]⟩

/-- Arduino `String::substring(left, right)`: swaps a reversed range, clamps to
the string length, returns the characters in `[left, right)`. -/
def substringA (s : String) (l r : Nat) : String :=
  let p := if r < l then (r, l) else (l, r)
  ⟨(s.data.take p.2).drop p.1⟩

/-- Helper for `indexOfA`: first index of `c`, or `-1`. -/
def indexOfAux (c : Char) : List Char → Int
  | [] => -1
  | x :: xs =>
    if x = c then 0
    else
      let r := indexOfAux c xs
      if r < 0 then -1 else r + 1

/-- Arduino `String::indexOf(char)`: index of the first occurrence, or `-1`. -/
def indexOfA (s : String) (c : Char) : Int := indexOfAux c s.data

/-- The digit-consuming phase of `atol`. -/
def digitsVal : List Char → Int → Int
  | [], acc => acc
  | c :: cs, acc =>
    if c.isDigit then digitsVal cs (acc * 10 + ((c.toNat : Int) - 48)) else acc

/-- C `isspace` on the characters `atol` skips. -/
def isSpaceC (c : Char) : Bool :=
  c = ' ' || c = '\t' || c = '\n' || c = '\x0b' || c = '\x0c' || c = '\r'

/-- C `atol`: skip whitespace, optional sign, leading digits; otherwise `0`. -/
def atolCore : List Char → Int
  | [] => 0
  | c :: cs =>
    if isSpaceC c then atolCore cs
    else if c = '-' then - digitsVal cs 0
    else if c = '+' then digitsVal cs 0
    else if c.isDigit then digitsVal cs ((c.toNat : Int) - 48)
    else 0

/-- Arduino `String::toInt()` (which calls `atol` on the buffer). -/
def atolA (s : String) : Int := atolCore s.data

/-! ### Clock state and time-sync parsing (device.ino lines 27, 43-127) -/

/-- The clock-related global state of the sketch: the `timeSet` flag (line 27),
the `TZ` environment variable set by `setenv`/`tzset` (line 102-103), and the
process wall clock set by `settimeofday` (line 123). -/
structure ClockState where
  timeSet : Bool
  tz : String
  epoch : Int
  deriving DecidableEq, Repr

/-- Days since 1970-01-01 of a civil date (the standard civil-from-days
inverse used by libc).  All divisions are Euclidean; every division below is
applied to non-negative arguments on the validated range, where Euclidean and
C truncating division agree. -/
def daysFromCivil (y m d : Int) : Int :=
  let yp := if m ≤ 2 then y - 1 else y
  let era := (if 0 ≤ yp then yp else yp - 399) / 400
  let yoe := yp - era * 400
  let mp := if m ≤ 2 then m + 9 else m - 3
  let doy := (153 * mp + 2) / 5 + d - 1
  let doe := yoe * 365 + yoe / 4 - yoe / 100 + doy
  era * 146097 + doe - 719468

/-- Model of libc `mktime` on the broken-down time built at lines 106-115:
civil date and time of day to seconds since the epoch, with unbounded
`time_t` and zero UTC offset (the timezone offset, bounded by a day, never
affects the sign for years ≥ 2023, which is all the sketch inspects). -/
def mktimeModel (y m d h mi s : Int) : Int :=
  daysFromCivil y m d * 86400 + h * 3600 + mi * 60 + s

/-- The six fixed-position field extractions of lines 87-92. -/
structure ParsedTime where
  year : Int
  month : Int
  day : Int
  hour : Int
  minute : Int
  second : Int
  deriving DecidableEq, Repr

/-- Lines 87-92: fixed-position substrings of the time part, each converted
with `toInt`. -/
def parseTimePart (timePart : String) : ParsedTime :=
  { year := atolA (substringA timePart 0 4)
    month := atolA (substringA timePart 5 7)
    day := atolA (substringA timePart 8 10)
    hour := atolA (substringA timePart 11 13)
    minute := atolA (substringA timePart 14 16)
    second := atolA (substringA timePart 17 19) }

/-- The validation condition of lines 95-96. -/
def outOfRange (p : ParsedTime) : Prop :=
  p.year < 2023 ∨ p.year > 2050 ∨ p.month < 1 ∨ p.month > 12 ∨ p.day < 1 ∨ p.day > 31 ∨
  p.hour < 0 ∨ p.hour > 23 ∨ p.minute < 0 ∨ p.minute > 59 ∨ p.second < 0 ∨ p.second > 59

instance (p : ParsedTime) : Decidable (outOfRange p) := by
  unfold outOfRange; infer_instance

/-- `setTimeFromString` (lines 75-127): split at the first `'|'`, extract the
six fields, validate ranges, then apply the timezone, convert to an epoch and
apply it.  Returns the sketch's boolean result together with the new clock
state. -/
def setTimeFromString (timeMsg : String) (st : ClockState) : Bool × ClockState :=
  let splitIndex := indexOfA timeMsg '|'
  if splitIndex < 0 then (false, st)
  else
    let timePart := substringA timeMsg 0 splitIndex.toNat
    let tzPart := substringA timeMsg (splitIndex.toNat + 1) timeMsg.data.length
    let p := parseTimePart timePart
    if outOfRange p then (false, st)
    else
      let st1 := { st with tz := tzPart }
      let epoch := mktimeModel p.year p.month p.day p.hour p.minute p.second
      if epoch < 0 then (false, st1)
      else (true, { st1 with epoch := epoch })

/-- The BLE characteristic callback (lines 45-56): on a non-empty write, try
to set the time, and raise `timeSet` on success. -/
def onWrite (rxValue : String) (st : ClockState) : ClockState :=
  if rxValue.data.length > 0 then
    let r := setTimeFromString rxValue st
    if r.1 then { r.2 with timeSet := true } else r.2
  else st

/-! ### Time formatting (device.ino lines 130-139) -/

/-- A broken-down local time as returned by `getLocalTime`. -/
structure Tm where
  year : Nat
  month : Nat
  day : Nat
  hour : Nat
  minute : Nat
  second : Nat
  deriving DecidableEq, Repr

/-- strftime with format `%Y-%m-%d %H:%M:%S` (line 137). -/
def formatTime (t : Tm) : String :=
  pad4 t.year ++ "-" ++ pad2 t.month ++ "-" ++ pad2 t.day ++ " " ++
  pad2 t.hour ++ ":" ++ pad2 t.minute ++ ":" ++ pad2 t.second

/-- `getFormattedTime` (lines 130-139): the fixed epoch placeholder when the
local clock cannot be read, otherwise the formatted local time.  The
`getLocalTime` outcome is an environment input. -/
def getFormattedTime (lt : Option Tm) : String :=
  match lt with
  | none => "1970-01-01 00:00:00"
  | some t => formatTime t

/-! ### I2C multiplexer control (device.ino lines 60-72) -/

/-- One Wire-library bus operation. -/
inductive BusOp where
  | beginTransmission (addr : Nat)
  | busWrite (value : Nat)
  | endTransmission
  deriving DecidableEq, Repr

/-- The TCA9548A I2C address (line 16). -/
def TCA9548A_ADDRESS : Nat := 0x70

/-- The configured sensor channels (line 19). -/
def AS7341_CHANNELS : List Nat := [0, 1, 2, 3, 4]

/-- `NUM_SENSORS` (line 20). -/
def NUM_SENSORS : Nat := AS7341_CHANNELS.length

/-- `tca_select` (lines 60-72): the argument is a `uint8_t`; ids above 7 other
than 255 are rejected before any bus traffic; 255 writes an all-off mask and
any other accepted id a one-hot mask.  The result is the emitted bus trace. -/
def tca_select (channel : Nat) : List BusOp :=
  if 7 < channel ∧ channel ≠ 255 then []
  else [BusOp.beginTransmission TCA9548A_ADDRESS,
        BusOp.busWrite (if channel = 255 then 0 else 2 ^ channel),
        BusOp.endTransmission]

/-! ### Record buffering and SD flush (device.ino lines 22-29, 142-156) -/

/-- `BUFFER_SIZE` (line 23). -/
def BUFFER_SIZE : Nat := 10

/-- The buffering globals `dataBuffer` and `bufferCount` (lines 28-29). -/
structure BufState where
  dataBuffer : String
  bufferCount : Nat
  deriving DecidableEq, Repr

/-- `writeBufferToSD` (lines 142-156): attempt to open the CSV in append mode
(outcome `openOk` is an environment input), print the buffer on success, then
clear buffer and count on every path.  The second component is the byte
string handed to the SD card, if any. -/
def writeBufferToSD (openOk : Bool) (s : BufState) : BufState × Option String :=
  if openOk then
    ({ s with dataBuffer := "", bufferCount := 0 }, some s.dataBuffer)
  else
    ({ s with dataBuffer := "", bufferCount := 0 }, none)

/-- Lines 247-254 of the loop body: append one data line to the buffer,
increment the count, and flush through `writeBufferToSD` once the count
reaches `BUFFER_SIZE`.  The second component records a flush: the value of
`bufferCount` at the call and the bytes handed over. -/
def bufferAppend (sdOk : Bool) (line : String) (s : BufState) :
    BufState × Option (Nat × String) :=
  let s1 : BufState := { dataBuffer := s.dataBuffer ++ line,
                         bufferCount := s.bufferCount + 1 }
  if s1.bufferCount ≥ BUFFER_SIZE then
    ((writeBufferToSD sdOk s1).1, some (s1.bufferCount, s1.dataBuffer))
  else (s1, none)

/-- Repeated `bufferAppend`, counting how many flushes fired. -/
def appendAll (sdOk : Bool) : List String → BufState → BufState × Nat
  | [], s => (s, 0)
  | l :: rest, s =>
    let p := bufferAppend sdOk l s
    let q := appendAll sdOk rest p.1
    (q.1, (if p.2.isSome then 1 else 0) + q.2)

/-! ### Record formatting (device.ino lines 236-249) -/

/-- Fuel-driven digit accumulator for decimal rendering. -/
def natDigitsCore : Nat → Nat → List Char → List Char
  | 0, _, acc => acc
  | fuel + 1, n, acc =>
    if n < 10 then digitChar n :: acc
    else natDigitsCore fuel (n / 10) (digitChar (n % 10) :: acc)

/-- Decimal digits of `n` (the rendering of Arduino `String(int)`). -/
def natDigits (n : Nat) : List Char := natDigitsCore (n + 1) n []

/-- Arduino `String(n)` for a non-negative integer. -/
def natStr (n : Nat) : String := ⟨natDigits n⟩

/-- Lines 240-245: `dateTime + "," + String(i+1) + ","`, then the ten channel
readings separated by commas, then a newline. -/
def buildDataLine (dateTime : String) (i : Nat) (r : Nat → Nat) : String :=
  let base := dateTime ++ "," ++ natStr (i + 1) ++ ","
  let withVals := (List.range 10).foldl
    (fun acc j => acc ++ natStr (r j) ++ (if j < 9 then "," else "")) base
  withVals ++ "\n"

/-- The record layout as the design document words it: the timestamp, the
1-based sensor index, and the ten values, comma-separated and
newline-terminated.  Stated separately from `buildDataLine` so that the two
can be compared. -/
def specRecord (timestamp : String) (sensorIndex : Nat) (values : List Nat) : String :=
  timestamp ++ "," ++ natStr sensorIndex ++ "," ++
  joinComma (values.map natStr) ++ "\n"
where
  joinComma : List String → String
    | [] => ""
    | [v] => v
    | v :: rest => v ++ "," ++ joinComma rest

/-! ### The acquisition loop (device.ino lines 205-269) -/

/-- One observable step of the loop: a `tca_select` call, a sensor init
attempt, the fixed configuration, a read attempt, a buffer append, a flush
(with the count and bytes at the call), or a delay. -/
inductive Action where
  | select (channel : Nat)
  | sensorInit (channel : Nat)
  | configure (channel : Nat)
  | read (channel : Nat)
  | append (line : String)
  | flush (count : Nat) (bytes : String)
  | delayMs (ms : Nat)
  deriving DecidableEq, Repr

/-- The environment of one `loop()` invocation, indexed by channel position
`i`: whether `as7341.begin()` acknowledges, whether `readAllChannels`
succeeds and what it reads, whether the SD open succeeds, and the
`getLocalTime` outcome. -/
structure CycleEnv where
  initOk : Nat → Bool
  readOk : Nat → Bool
  readings : Nat → Nat → Nat
  sdOpenOk : Nat → Bool
  timeNow : Nat → Option Tm

/-- The per-channel body of the `for` loop (lines 208-258): select, settle,
re-init (a failure `continue`s), configure, integration wait, read (a failure
skips the record), format, buffer, maybe flush, inter-sensor delay. -/
def perChannel (env : CycleEnv) (i : Nat) (s : BufState) : BufState × List Action :=
  let channel := AS7341_CHANNELS.getD i 0
  let tr0 := [Action.select channel, Action.delayMs 10, Action.sensorInit channel]
  if env.initOk i = false then (s, tr0)
  else
    let tr1 := tr0 ++ [Action.configure channel, Action.delayMs 200, Action.read channel]
    if env.readOk i = false then (s, tr1 ++ [Action.delayMs 100])
    else
      let dateTime := getFormattedTime (env.timeNow i)
      let dataLine := buildDataLine dateTime i (env.readings i)
      let p := bufferAppend (env.sdOpenOk i) dataLine s
      let ftr := match p.2 with
        | some fc => [Action.flush fc.1 fc.2]
        | none => []
      (p.1, tr1 ++ [Action.append dataLine] ++ ftr ++ [Action.delayMs 100])

/-- The `for` loop over the channel indices. -/
def runChs (env : CycleEnv) : List Nat → BufState → BufState × List Action
  | [], s => (s, [])
  | i :: rest, s =>
    let p := perChannel env i s
    let q := runChs env rest p.1
    (q.1, p.2 ++ q.2)

/-- One invocation of `loop()` (lines 205-269): when `timeSet` holds, a full
pass over the channels, the deselect-all call, and the inter-cycle delay;
otherwise only the 2-second wait. -/
def loopStep (env : CycleEnv) (timeSet : Bool) (s : BufState) : BufState × List Action :=
  if timeSet then
    let p := runChs env (List.range NUM_SENSORS) s
    (p.1, p.2 ++ [Action.select 255, Action.delayMs 1000])
  else (s, [Action.delayMs 2000])

/-! ### Derived definitions used by the statements -/

/-- The characters of a `YYYY-MM-DD HH:MM:SS` time part. -/
def timeChars (y mo d h mi s : Nat) : List Char :=
  (pad4 y).data ++ '-' :: ((pad2 mo).data ++ '-' :: ((pad2 d).data ++ ' ' ::
  ((pad2 h).data ++ ':' :: ((pad2 mi).data ++ ':' :: (pad2 s).data))))

/-- A well-formed sync message: zero-padded fixed-width fields, the `'|'`
delimiter, and an arbitrary timezone tail. -/
def syncMsg (y mo d h mi s : Nat) (tz : String) : String :=
  formatTime ⟨y, mo, d, h, mi, s⟩ ++ "|" ++ tz

/-- The number of newline-terminated records held in a buffer. -/
def recCount (b : String) : Nat := b.data.count '\n'

/-- The buffering invariant: the record counter matches the buffered records
and stays below the flush threshold. -/
def bufInv (s : BufState) : Prop :=
  s.bufferCount = recCount s.dataBuffer ∧ s.bufferCount < BUFFER_SIZE

/-- A concrete all-successful environment, used to exercise the theorems on
closed inputs. -/
def envC : CycleEnv :=
  { initOk := fun _ => true
    readOk := fun _ => true
    readings := fun _ _ => 0
    sdOpenOk := fun _ => true
    timeNow := fun _ => none }

/-! ### Character and digit lemmas -/

theorem digitChar_toNat (k : Nat) (hk : k < 10) : (digitChar k).toNat = 48 + k := by
  interval_cases k <;> decide

theorem digitChar_isDigit (k : Nat) (hk : k < 10) : (digitChar k).isDigit = true := by
  interval_cases k <;> decide

theorem digitChar_not_space (k : Nat) (hk : k < 10) : isSpaceC (digitChar k) = false := by
  interval_cases k <;> decide

theorem digitChar_ne (k : Nat) (hk : k < 10) (c : Char) (hc : c.isDigit = false) :
    digitChar k ≠ c := by
  intro h
  rw [← h, digitChar_isDigit k hk] at hc
  cases hc

theorem digitsVal_digit (k : Nat) (hk : k < 10) (cs : List Char) (acc : Int) :
    digitsVal (digitChar k :: cs) acc = digitsVal cs (acc * 10 + k) := by
  show (if (digitChar k).isDigit then _ else _) = _
  rw [digitChar_isDigit k hk]
  simp only [if_true]
  congr 1
  rw [digitChar_toNat k hk]
  push_cast
  ring

theorem atolCore_digit (k : Nat) (hk : k < 10) (cs : List Char) :
    atolCore (digitChar k :: cs) = digitsVal cs (k : Int) := by
  show (if isSpaceC (digitChar k) then _ else _) = _
  rw [digitChar_not_space k hk]
  simp only [Bool.false_eq_true, if_false]
  rw [if_neg (digitChar_ne k hk '-' (by decide)), if_neg (digitChar_ne k hk '+' (by decide)),
    if_pos (digitChar_isDigit k hk), digitChar_toNat k hk]
  congr 1
  push_cast
  ring

theorem atolA_pad2 (n : Nat) (hn : n < 100) : atolA (pad2 n) = (n : Int) := by
  have h1 : n / 10 % 10 < 10 := Nat.mod_lt _ (by omega)
  have h2 : n % 10 < 10 := Nat.mod_lt _ (by omega)
  show atolCore [digitChar (n / 10 % 10), digitChar (n % 10)] = (n : Int)
  rw [atolCore_digit _ h1, digitsVal_digit _ h2]
  show ((n / 10 % 10 : Nat) : Int) * 10 + (n % 10 : Nat) = (n : Int)
  push_cast
  omega

theorem atolA_pad4 (n : Nat) (hn : n < 10000) : atolA (pad4 n) = (n : Int) := by
  have h1 : n / 1000 % 10 < 10 := Nat.mod_lt _ (by omega)
  have h2 : n / 100 % 10 < 10 := Nat.mod_lt _ (by omega)
  have h3 : n / 10 % 10 < 10 := Nat.mod_lt _ (by omega)
  have h4 : n % 10 < 10 := Nat.mod_lt _ (by omega)
  show atolCore [digitChar (n / 1000 % 10), digitChar (n / 100 % 10),
    digitChar (n / 10 % 10), digitChar (n % 10)] = (n : Int)
  rw [atolCore_digit _ h1, digitsVal_digit _ h2, digitsVal_digit _ h3, digitsVal_digit _ h4]
  show (((((n / 1000 % 10 : Nat) : Int) * 10 + (n / 100 % 10 : Nat)) * 10 +
    (n / 10 % 10 : Nat)) * 10 + (n % 10 : Nat) : Int) = (n : Int)
  push_cast
  omega

/-! ### List slicing helpers -/

theorem take_app {α : Type} (l r : List α) : (l ++ r).take l.length = l := by
  induction l with
  | nil => rfl
  | cons x xs ih => simp [ih]

theorem drop_app {α : Type} (l r : List α) : (l ++ r).drop l.length = r := by
  induction l with
  | nil => rfl
  | cons x xs ih => simp [ih]

theorem slice_mid (pre mid post : List Char) (a b : Nat)
    (hpre : pre.length = a) (hmid : mid.length = b) :
    ((pre ++ (mid ++ post)).take (a + b)).drop a = mid := by
  rw [← List.append_assoc]
  have h1 : (pre ++ mid).length = a + b := by
    rw [List.length_append, hpre, hmid]
  rw [← h1, take_app, ← hpre, drop_app]

theorem indexOfAux_append (c : Char) (l r : List Char) (h : ∀ x ∈ l, x ≠ c) :
    indexOfAux c (l ++ c :: r) = (l.length : Int) := by
  induction l with
  | nil => simp [indexOfAux]
  | cons x xs ih =>
    have hx : x ≠ c := h x (by simp)
    have ihh : indexOfAux c (xs ++ c :: r) = (xs.length : Int) :=
      ih (fun z hz => h z (by simp [hz]))
    show (if x = c then (0 : Int) else _) = _
    rw [if_neg hx]
    show (if indexOfAux c (xs ++ c :: r) < 0 then (-1 : Int)
          else indexOfAux c (xs ++ c :: r) + 1) = _
    rw [ihh, if_neg (by omega : ¬((xs.length : Int) < 0))]
    simp only [List.length_cons]
    push_cast
    ring

/-! ### The mktime model never yields a negative epoch on validated fields -/

theorem mktimeModel_nonneg (y mo d h mi s : Int)
    (hy : 2023 ≤ y) (hy2 : y ≤ 2050) (hmo : 1 ≤ mo) (hmo2 : mo ≤ 12)
    (hd : 1 ≤ d) (hd2 : d ≤ 31) (hh : 0 ≤ h) (hh2 : h ≤ 23)
    (hmi : 0 ≤ mi) (hmi2 : mi ≤ 59) (hs : 0 ≤ s) (hs2 : s ≤ 59) :
    0 ≤ mktimeModel y mo d h mi s := by
  unfold mktimeModel daysFromCivil
  rcases le_or_lt mo 2 with hm | hm
  · simp only [if_pos hm, if_pos (show (0 : Int) ≤ y - 1 by omega)]
    omega
  · simp only [if_neg (not_le.mpr hm), if_pos (show (0 : Int) ≤ y by omega)]
    omega

/-! ### Parsing a well-formed sync message -/

theorem substringA_eq (s : String) (l r : Nat) (h : l ≤ r) :
    substringA s l r = ⟨(s.data.take r).drop l⟩ := by
  unfold substringA
  rw [if_neg (by omega)]

theorem formatTime_data (t : Tm) :
    (formatTime t).data = timeChars t.year t.month t.day t.hour t.minute t.second := rfl

theorem syncMsg_data (y mo d h mi s : Nat) (tz : String) :
    (syncMsg y mo d h mi s tz).data = timeChars y mo d h mi s ++ '|' :: tz.data := rfl

theorem pad4_mem (n : Nat) : ∀ c ∈ (pad4 n).data, ∃ k, k < 10 ∧ c = digitChar k := by
  intro c hc
  simp only [pad4, List.mem_cons, List.not_mem_nil, or_false] at hc
  rcases hc with rfl | rfl | rfl | rfl <;> exact ⟨_, Nat.mod_lt _ (by omega), rfl⟩

theorem pad2_mem (n : Nat) : ∀ c ∈ (pad2 n).data, ∃ k, k < 10 ∧ c = digitChar k := by
  intro c hc
  simp only [pad2, List.mem_cons, List.not_mem_nil, or_false] at hc
  rcases hc with rfl | rfl <;> exact ⟨_, Nat.mod_lt _ (by omega), rfl⟩

theorem timeChars_mem (y mo d h mi s : Nat) (c : Char)
    (hc : c ∈ timeChars y mo d h mi s) :
    (∃ k, k < 10 ∧ c = digitChar k) ∨ c = '-' ∨ c = ' ' ∨ c = ':' := by
  simp only [timeChars, List.mem_append, List.mem_cons] at hc
  rcases hc with h1 | rfl | h1 | rfl | h1 | rfl | h1 | rfl | h1 | rfl | h1
  · exact Or.inl (pad4_mem y c h1)
  · simp
  · exact Or.inl (pad2_mem mo c h1)
  · simp
  · exact Or.inl (pad2_mem d c h1)
  · simp
  · exact Or.inl (pad2_mem h c h1)
  · simp
  · exact Or.inl (pad2_mem mi c h1)
  · simp
  · exact Or.inl (pad2_mem s c h1)

theorem timeChars_ne (y mo d h mi s : Nat) (c0 : Char)
    (h0 : c0.isDigit = false) (h1 : c0 ≠ '-') (h2 : c0 ≠ ' ') (h3 : c0 ≠ ':') :
    ∀ c ∈ timeChars y mo d h mi s, c ≠ c0 := by
  intro c hc
  rcases timeChars_mem y mo d h mi s c hc with ⟨k, hk, rfl⟩ | rfl | rfl | rfl
  · exact digitChar_ne k hk c0 h0
  · exact Ne.symm h1
  · exact Ne.symm h2
  · exact Ne.symm h3

theorem timeChars_length (y mo d h mi s : Nat) :
    (timeChars y mo d h mi s).length = 19 := by
  simp [timeChars, pad4, pad2]

theorem indexOfA_syncMsg (y mo d h mi s : Nat) (tz : String) :
    indexOfA (syncMsg y mo d h mi s tz) '|' = 19 := by
  rw [indexOfA, syncMsg_data,
    indexOfAux_append _ _ _
      (timeChars_ne y mo d h mi s '|' (by decide) (by decide) (by decide) (by decide)),
    timeChars_length]
  rfl

theorem timePart_syncMsg (y mo d h mi s : Nat) (tz : String) :
    substringA (syncMsg y mo d h mi s tz) 0 19 = ⟨timeChars y mo d h mi s⟩ := by
  rw [substringA_eq _ _ _ (by omega), List.drop_zero, syncMsg_data,
    show (19 : Nat) = (timeChars y mo d h mi s).length from (timeChars_length _ _ _ _ _ _).symm,
    take_app]

theorem tzPart_syncMsg (y mo d h mi s : Nat) (tz : String) :
    substringA (syncMsg y mo d h mi s tz) 20 (syncMsg y mo d h mi s tz).data.length = tz := by
  have hlen : 20 ≤ (syncMsg y mo d h mi s tz).data.length := by
    rw [syncMsg_data]
    simp [timeChars_length]
    omega
  rw [substringA_eq _ _ _ hlen, List.take_length, syncMsg_data,
    show timeChars y mo d h mi s ++ '|' :: tz.data =
      (timeChars y mo d h mi s ++ ['|']) ++ tz.data by simp,
    show (20 : Nat) = (timeChars y mo d h mi s ++ ['|']).length by simp [timeChars_length],
    drop_app]

theorem parse_syncMsg (y mo d h mi s : Nat) (hy : y < 10000) (hmo : mo < 100)
    (hd : d < 100) (hh : h < 100) (hmi : mi < 100) (hs : s < 100) :
    parseTimePart ⟨timeChars y mo d h mi s⟩ =
      ⟨(y : Int), (mo : Int), (d : Int), (h : Int), (mi : Int), (s : Int)⟩ := by
  have e1 : substringA ⟨timeChars y mo d h mi s⟩ 0 4 = pad4 y := by
    rw [substringA_eq _ _ _ (by omega)]; rfl
  have e2 : substringA ⟨timeChars y mo d h mi s⟩ 5 7 = pad2 mo := by
    rw [substringA_eq _ _ _ (by omega)]; rfl
  have e3 : substringA ⟨timeChars y mo d h mi s⟩ 8 10 = pad2 d := by
    rw [substringA_eq _ _ _ (by omega)]; rfl
  have e4 : substringA ⟨timeChars y mo d h mi s⟩ 11 13 = pad2 h := by
    rw [substringA_eq _ _ _ (by omega)]; rfl
  have e5 : substringA ⟨timeChars y mo d h mi s⟩ 14 16 = pad2 mi := by
    rw [substringA_eq _ _ _ (by omega)]; rfl
  have e6 : substringA ⟨timeChars y mo d h mi s⟩ 17 19 = pad2 s := by
    rw [substringA_eq _ _ _ (by omega)]; rfl
  unfold parseTimePart
  rw [e1, e2, e3, e4, e5, e6, atolA_pad4 y hy, atolA_pad2 mo hmo, atolA_pad2 d hd,
    atolA_pad2 h hh, atolA_pad2 mi hmi, atolA_pad2 s hs]

/-! ### Behaviour of setTimeFromString -/

theorem setTimeFromString_syncMsg (y mo d h mi s : Nat) (tz : String) (st : ClockState)
    (hy : 2023 ≤ y) (hy2 : y ≤ 2050) (hmo : 1 ≤ mo) (hmo2 : mo ≤ 12)
    (hd : 1 ≤ d) (hd2 : d ≤ 31) (hh : h ≤ 23) (hmi : mi ≤ 59) (hs : s ≤ 59) :
    setTimeFromString (syncMsg y mo d h mi s tz) st =
      (true, { st with tz := tz, epoch := mktimeModel y mo d h mi s }) := by
  have hparse : parseTimePart ⟨timeChars y mo d h mi s⟩ =
      ⟨(y : Int), (mo : Int), (d : Int), (h : Int), (mi : Int), (s : Int)⟩ :=
    parse_syncMsg y mo d h mi s (by omega) (by omega) (by omega) (by omega) (by omega) (by omega)
  have hrange : ¬ outOfRange ⟨(y : Int), (mo : Int), (d : Int), (h : Int), (mi : Int), (s : Int)⟩ := by
    unfold outOfRange
    push_neg
    refine ⟨?_, ?_, ?_, ?_, ?_, ?_, ?_, ?_, ?_, ?_, ?_, ?_⟩ <;> simp <;> omega
  have hnn : 0 ≤ mktimeModel y mo d h mi s :=
    mktimeModel_nonneg _ _ _ _ _ _ (by exact_mod_cast hy) (by exact_mod_cast hy2)
      (by exact_mod_cast hmo) (by exact_mod_cast hmo2) (by exact_mod_cast hd)
      (by exact_mod_cast hd2) (by positivity) (by exact_mod_cast hh)
      (by positivity) (by exact_mod_cast hmi) (by positivity) (by exact_mod_cast hs)
  simp only [setTimeFromString, indexOfA_syncMsg]
  rw [if_neg (by omega : ¬((19 : Int) < 0))]
  rw [show ((19 : Int)).toNat = 19 from rfl]
  rw [timePart_syncMsg, hparse, if_neg hrange, tzPart_syncMsg]
  rw [if_neg (not_lt.mpr hnn)]

theorem setTimeFromString_false_inv (msg : String) (st : ClockState)
    (h : (setTimeFromString msg st).1 = false) : (setTimeFromString msg st).2 = st := by
  by_cases h1 : indexOfA msg '|' < 0
  · simp [setTimeFromString, h1]
  · by_cases h2 : outOfRange (parseTimePart (substringA msg 0 (indexOfA msg '|').toNat))
    · simp [setTimeFromString, h1, h2]
    · exfalso
      unfold outOfRange at h2
      push_neg at h2
      obtain ⟨a1, a2, a3, a4, a5, a6, a7, a8, a9, a10, a11, a12⟩ := h2
      have hnn := mktimeModel_nonneg _ _ _ _ _ _ a1 a2 a3 a4 a5 a6 a7 a8 a9 a10 a11 a12
      simp [setTimeFromString, h1,
        show ¬ outOfRange (parseTimePart (substringA msg 0 (indexOfA msg '|').toNat)) from by
          unfold outOfRange; push_neg; exact ⟨a1, a2, a3, a4, a5, a6, a7, a8, a9, a10, a11, a12⟩,
        not_lt.mpr hnn] at h

theorem setTimeFromString_timeSet (msg : String) (st : ClockState) :
    (setTimeFromString msg st).2.timeSet = st.timeSet := by
  by_cases h1 : indexOfA msg '|' < 0
  · simp [setTimeFromString, h1]
  · by_cases h2 : outOfRange (parseTimePart (substringA msg 0 (indexOfA msg '|').toNat))
    · simp [setTimeFromString, h1, h2]
    · by_cases h3 : mktimeModel (parseTimePart (substringA msg 0 (indexOfA msg '|').toNat)).year
        (parseTimePart (substringA msg 0 (indexOfA msg '|').toNat)).month
        (parseTimePart (substringA msg 0 (indexOfA msg '|').toNat)).day
        (parseTimePart (substringA msg 0 (indexOfA msg '|').toNat)).hour
        (parseTimePart (substringA msg 0 (indexOfA msg '|').toNat)).minute
        (parseTimePart (substringA msg 0 (indexOfA msg '|').toNat)).second < 0
      · simp [setTimeFromString, h1, h2, h3]
      · simp [setTimeFromString, h1, h2, h3]

theorem onWrite_timeSet_mono (msg : String) (st : ClockState) (h : st.timeSet = true) :
    (onWrite msg st).timeSet = true := by
  unfold onWrite
  split
  · have hts := setTimeFromString_timeSet msg st
    cases hb : (setTimeFromString msg st).1 <;> simp [hb, hts, h]
  · exact h

theorem foldl_onWrite_timeSet (ms : List String) (st : ClockState) (h : st.timeSet = true) :
    (ms.foldl (fun acc m => onWrite m acc) st).timeSet = true := by
  induction ms generalizing st with
  | nil => exact h
  | cons m rest ih => exact ih _ (onWrite_timeSet_mono m st h)

/-! ### Record text: digits only, exactly one newline -/

theorem strExt (s t : String) (h : s.data = t.data) : s = t := by
  cases s
  cases t
  exact congrArg String.mk h

theorem strData_append (s t : String) : (s ++ t).data = s.data ++ t.data := rfl

theorem natDigitsCore_mem (fuel : Nat) : ∀ (n : Nat) (acc : List Char),
    (∀ c ∈ acc, ∃ k, k < 10 ∧ c = digitChar k) →
    ∀ c ∈ natDigitsCore fuel n acc, ∃ k, k < 10 ∧ c = digitChar k := by
  induction fuel with
  | zero => exact fun n acc hacc c hc => hacc c hc
  | succ fuel ih =>
    intro n acc hacc c hc
    simp only [natDigitsCore] at hc
    split at hc
    · rcases List.mem_cons.mp hc with rfl | hmem
      · exact ⟨n, by omega, rfl⟩
      · exact hacc c hmem
    · refine ih (n / 10) _ ?_ c hc
      intro c' hc'
      rcases List.mem_cons.mp hc' with rfl | hmem
      · exact ⟨n % 10, Nat.mod_lt _ (by omega), rfl⟩
      · exact hacc c' hmem

theorem natStr_mem (n : Nat) : ∀ c ∈ (natStr n).data, ∃ k, k < 10 ∧ c = digitChar k :=
  natDigitsCore_mem (n + 1) n [] (by simp)

theorem count_newline_natStr (n : Nat) : (natStr n).data.count '\n' = 0 := by
  rw [List.count_eq_zero]
  intro hmem
  rcases natStr_mem n _ hmem with ⟨k, hk, hc⟩
  exact digitChar_ne k hk '\n' (by decide) hc.symm

theorem count_newline_getFormattedTime (lt : Option Tm) :
    (getFormattedTime lt).data.count '\n' = 0 := by
  cases lt with
  | none => decide
  | some t =>
    rw [List.count_eq_zero]
    intro hmem
    rw [show (getFormattedTime (some t)).data = (formatTime t).data from rfl,
      formatTime_data] at hmem
    rcases timeChars_mem t.year t.month t.day t.hour t.minute t.second '\n' hmem with
      ⟨k, hk, hc⟩ | hc | hc | hc
    · exact digitChar_ne k hk '\n' (by decide) hc.symm
    all_goals simp at hc

theorem count_newline_joinComma (l : List String)
    (hl : ∀ v ∈ l, v.data.count '\n' = 0) :
    (specRecord.joinComma l).data.count '\n' = 0 := by
  induction l with
  | nil => decide
  | cons v rest ih =>
    cases rest with
    | nil => simpa using hl v (by simp)
    | cons w ws =>
      show ((v ++ "," ++ specRecord.joinComma (w :: ws)).data.count '\n') = 0
      rw [strData_append, strData_append, List.count_append, List.count_append]
      have h1 := hl v (by simp)
      have h2 := ih (fun z hz => hl z (List.mem_cons_of_mem v hz))
      simp [h1, h2]

theorem buildDataLine_eq_specRecord (dt : String) (i : Nat) (r : Nat → Nat) :
    buildDataLine dt i r = specRecord dt (i + 1) ((List.range 10).map r) := by
  have hr : List.range 10 = [0, 1, 2, 3, 4, 5, 6, 7, 8, 9] := rfl
  apply strExt
  unfold buildDataLine specRecord
  rw [hr]
  simp only [List.foldl_cons, List.foldl_nil, List.map_cons, List.map_nil]
  show (_ : String).data = (_ ++ specRecord.joinComma _ ++ _ : String).data
  simp only [specRecord.joinComma]
  simp [strData_append, List.append_assoc]

theorem count_newline_buildDataLine (dt : String) (hdt : dt.data.count '\n' = 0)
    (i : Nat) (r : Nat → Nat) :
    recCount (buildDataLine dt i r) = 1 := by
  rw [recCount, buildDataLine_eq_specRecord]
  unfold specRecord
  rw [strData_append, strData_append, strData_append, strData_append, strData_append]
  simp only [List.count_append]
  rw [hdt, count_newline_natStr,
    count_newline_joinComma _ (by
      intro v hv
      rcases List.mem_map.mp hv with ⟨a, _, rfl⟩
      exact count_newline_natStr _)]
  decide

/-! ### Buffer behaviour -/

theorem writeBufferToSD_clears (openOk : Bool) (s : BufState) :
    (writeBufferToSD openOk s).1 = ⟨"", 0⟩ := by
  unfold writeBufferToSD
  split <;> rfl

theorem bufferAppend_flushed (sdOk : Bool) (line : String) (s : BufState) :
    (10 ≤ s.bufferCount + 1 →
      (bufferAppend sdOk line s).1 = ⟨"", 0⟩ ∧
      (bufferAppend sdOk line s).2 = some (s.bufferCount + 1, s.dataBuffer ++ line)) ∧
    (s.bufferCount + 1 < 10 →
      (bufferAppend sdOk line s).1 = ⟨s.dataBuffer ++ line, s.bufferCount + 1⟩ ∧
      (bufferAppend sdOk line s).2 = none) := by
  simp only [bufferAppend, BUFFER_SIZE, ge_iff_le]
  constructor
  · intro h
    rw [if_pos h]
    exact ⟨writeBufferToSD_clears _ _, rfl⟩
  · intro h
    rw [if_neg (by omega)]
    exact ⟨rfl, rfl⟩

theorem appendAll_no_flush (sdOk : Bool) (lines : List String) : ∀ s : BufState,
    s.bufferCount + lines.length < 10 →
    (appendAll sdOk lines s).2 = 0 ∧
    (appendAll sdOk lines s).1.bufferCount = s.bufferCount + lines.length := by
  induction lines with
  | nil => exact fun s h => ⟨rfl, rfl⟩
  | cons l rest ih =>
    intro s h
    simp only [List.length_cons] at h
    obtain ⟨hA, hB⟩ := (bufferAppend_flushed sdOk l s).2 (by omega)
    have hx : (⟨s.dataBuffer ++ l, s.bufferCount + 1⟩ : BufState).bufferCount =
        s.bufferCount + 1 := rfl
    have hrec := ih ⟨s.dataBuffer ++ l, s.bufferCount + 1⟩ (by rw [hx]; omega)
    rw [hx] at hrec
    simp only [appendAll, hA, hB, Option.isSome_none, Bool.false_eq_true, if_false,
      List.length_cons, Nat.zero_add]
    exact ⟨hrec.1, by rw [hrec.2]; omega⟩

theorem appendAll_exact (sdOk : Bool) (lines : List String) : ∀ s : BufState,
    s.bufferCount < 10 → s.bufferCount + lines.length = 10 →
    (appendAll sdOk lines s).2 = 1 ∧ (appendAll sdOk lines s).1 = ⟨"", 0⟩ := by
  induction lines with
  | nil =>
    intro s h1 h2
    simp only [List.length_nil, Nat.add_zero] at h2
    omega
  | cons l rest ih =>
    intro s h1 h2
    simp only [List.length_cons] at h2
    by_cases hc : 10 ≤ s.bufferCount + 1
    · have hrest : rest = [] := List.length_eq_zero.mp (by omega)
      subst hrest
      obtain ⟨hA, hB⟩ := (bufferAppend_flushed sdOk l s).1 hc
      simp only [appendAll, hA, hB, Option.isSome_some, if_true]
      exact ⟨by trivial, by trivial⟩
    · obtain ⟨hA, hB⟩ := (bufferAppend_flushed sdOk l s).2 (by omega)
      have hx : (⟨s.dataBuffer ++ l, s.bufferCount + 1⟩ : BufState).bufferCount =
          s.bufferCount + 1 := rfl
      have hrec := ih ⟨s.dataBuffer ++ l, s.bufferCount + 1⟩ (by rw [hx]; omega)
        (by rw [hx]; omega)
      simp only [appendAll, hA, hB, Option.isSome_none, Bool.false_eq_true, if_false,
        Nat.zero_add]
      exact ⟨hrec.1, hrec.2⟩

theorem bufferAppend_inv (sdOk : Bool) (line : String) (s : BufState)
    (hinv : bufInv s) (hline : recCount line = 1) :
    bufInv (bufferAppend sdOk line s).1 ∧
    (∀ n bytes, (bufferAppend sdOk line s).2 = some (n, bytes) →
      n = 10 ∧ recCount bytes = 10) := by
  obtain ⟨hcnt, hlt⟩ := hinv
  simp only [BUFFER_SIZE] at hlt
  have hcat : recCount (s.dataBuffer ++ line) = s.bufferCount + 1 := by
    rw [recCount, strData_append, List.count_append]
    rw [recCount] at hline hcnt
    omega
  by_cases hc : 10 ≤ s.bufferCount + 1
  · obtain ⟨hA, hB⟩ := (bufferAppend_flushed sdOk line s).1 hc
    constructor
    · rw [hA]
      exact ⟨by decide, by decide⟩
    · intro n bytes hsome
      rw [hB] at hsome
      simp only [Option.some.injEq, Prod.mk.injEq] at hsome
      obtain ⟨he1, he2⟩ := hsome
      constructor
      · omega
      · rw [← he2, hcat]
        omega
  · obtain ⟨hA, hB⟩ := (bufferAppend_flushed sdOk line s).2 (by omega)
    constructor
    · rw [hA]
      refine ⟨hcat.symm, ?_⟩
      show s.bufferCount + 1 < BUFFER_SIZE
      simp only [BUFFER_SIZE]
      omega
    · intro n bytes hsome
      rw [hB] at hsome
      cases hsome

/-! ### Acquisition-loop lemmas -/

theorem perChannel_inv (env : CycleEnv) (i : Nat) (s : BufState) (hinv : bufInv s) :
    bufInv (perChannel env i s).1 ∧
    (∀ n bytes, Action.flush n bytes ∈ (perChannel env i s).2 →
      n = 10 ∧ recCount bytes = 10) := by
  simp only [perChannel]
  split
  · exact ⟨hinv, by intro n bytes hm; simp at hm⟩
  · split
    · exact ⟨hinv, by intro n bytes hm; simp at hm⟩
    · have hline : recCount (buildDataLine (getFormattedTime (env.timeNow i)) i
          (env.readings i)) = 1 :=
        count_newline_buildDataLine _ (count_newline_getFormattedTime _) _ _
      obtain ⟨hI, hF⟩ := bufferAppend_inv (env.sdOpenOk i) _ s hinv hline
      refine ⟨hI, ?_⟩
      intro n bytes hm
      rcases hp : (bufferAppend (env.sdOpenOk i)
          (buildDataLine (getFormattedTime (env.timeNow i)) i (env.readings i)) s).2
        with _ | fc
      · rw [hp] at hm
        simp at hm
      · rw [hp] at hm
        simp at hm
        rcases hm with ⟨rfl, rfl⟩
        exact hF fc.1 fc.2 (by rw [hp])

theorem runChs_inv (env : CycleEnv) (l : List Nat) : ∀ s : BufState, bufInv s →
    bufInv (runChs env l s).1 ∧
    (∀ n bytes, Action.flush n bytes ∈ (runChs env l s).2 →
      n = 10 ∧ recCount bytes = 10) := by
  induction l with
  | nil => exact fun s h => ⟨h, by intro n bytes hm; simp [runChs] at hm⟩
  | cons i rest ih =>
    intro s h
    obtain ⟨h1, h2⟩ := perChannel_inv env i s h
    obtain ⟨h3, h4⟩ := ih _ h1
    refine ⟨h3, ?_⟩
    intro n bytes hm
    simp only [runChs, List.mem_append] at hm
    rcases hm with hm | hm
    · exact h2 n bytes hm
    · exact h4 n bytes hm

theorem loopStep_inv (env : CycleEnv) (b : Bool) (s : BufState) (h : bufInv s) :
    bufInv (loopStep env b s).1 ∧
    (∀ n bytes, Action.flush n bytes ∈ (loopStep env b s).2 →
      n = 10 ∧ recCount bytes = 10) := by
  unfold loopStep
  split
  · obtain ⟨h1, h2⟩ := runChs_inv env (List.range NUM_SENSORS) s h
    refine ⟨h1, ?_⟩
    intro n bytes hm
    simp only [List.mem_append] at hm
    rcases hm with hm | hm
    · exact h2 _ _ hm
    · simp at hm
  · exact ⟨h, by intro n bytes hm; simp at hm⟩

theorem perChannel_append_line (env : CycleEnv) (i : Nat) (s : BufState) (line : String)
    (h : Action.append line ∈ (perChannel env i s).2) :
    line = buildDataLine (getFormattedTime (env.timeNow i)) i (env.readings i) := by
  simp only [perChannel] at h
  split at h
  · simp at h
  · split at h
    · simp at h
    · rcases hp : (bufferAppend (env.sdOpenOk i)
          (buildDataLine (getFormattedTime (env.timeNow i)) i (env.readings i)) s).2
        with _ | fc <;> rw [hp] at h <;> simp at h <;> tauto

theorem runChs_append_line (env : CycleEnv) (l : List Nat) : ∀ (s : BufState) (line : String),
    Action.append line ∈ (runChs env l s).2 →
    ∃ i ∈ l, line = buildDataLine (getFormattedTime (env.timeNow i)) i (env.readings i) := by
  induction l with
  | nil =>
    intro s line hm
    simp [runChs] at hm
  | cons i rest ih =>
    intro s line hm
    simp only [runChs, List.mem_append] at hm
    rcases hm with hm | hm
    · exact ⟨i, by simp, perChannel_append_line env i s line hm⟩
    · obtain ⟨j, hj, he⟩ := ih _ line hm
      exact ⟨j, by simp [hj], he⟩

/-! ### Substring safety -/

theorem substringA_length (s : String) (l r : Nat) :
    (substringA s l r).length ≤ s.length ∧
    (l ≤ r → (substringA s l r).length ≤ r - l) := by
  unfold substringA
  split
  · rename_i hrl
    constructor
    · show ((s.data.take l).drop r).length ≤ s.data.length
      simp only [List.length_drop, List.length_take]
      omega
    · intro h
      omega
  · constructor
    · show ((s.data.take r).drop l).length ≤ s.data.length
      simp only [List.length_drop, List.length_take]
      omega
    · intro h
      show ((s.data.take r).drop l).length ≤ r - l
      simp only [List.length_drop, List.length_take]
      omega

/-! ### The claims -/

/-- C1 counterexample: channel id 5 is outside the configured channel set
`{0,1,2,3,4}` and is not the deselect-all sentinel 255, yet `tca_select 5`
performs a bus transaction rather than returning without side effects. -/
theorem c1_counterexample :
    (5 : Nat) ∉ AS7341_CHANNELS ∧ (5 : Nat) ≠ 255 ∧ tca_select 5 ≠ [] := by
  refine ⟨by decide, by decide, by decide⟩

/-- C1 (amended): `tca_select` validates only against the hardware range: a
`uint8_t` channel id greater than 7 and distinct from 255 is rejected with
zero bus transactions, while every id up to 7 — including ids 5-7, which are
outside the configured channel set — produces a bus transaction. -/
theorem c1_select_guard (channel : Nat) (h8 : channel < 256) :
    (7 < channel ∧ channel ≠ 255 → tca_select channel = []) ∧
    (channel ≤ 7 → tca_select channel ≠ []) := by
  constructor
  · intro h
    unfold tca_select
    rw [if_pos h]
  · intro h
    unfold tca_select
    rw [if_neg (by omega)]
    simp

/-- C1 witness: channel 100 is rejected with no bus traffic; channel 5 is not. -/
theorem c1_select_guard_witness : tca_select 100 = [] ∧ tca_select 5 ≠ [] :=
  ⟨(c1_select_guard 100 (by omega)).1 (by omega), (c1_select_guard 5 (by omega)).2 (by omega)⟩

/-- C2: whenever `setTimeFromString` returns `false`, the entire clock state —
the `timeSet` flag, the process wall clock and the timezone setting — is left
exactly as it was. -/
theorem c2_rejected_sync_leaves_clock (msg : String) (st : ClockState)
    (h : (setTimeFromString msg st).1 = false) :
    (setTimeFromString msg st).2 = st :=
  setTimeFromString_false_inv msg st h

/-- C2 witness: a delimiter-free message is rejected and the state survives. -/
theorem c2_rejected_sync_leaves_clock_witness :
    (setTimeFromString "not-a-sync" ⟨false, "UTC0", 42⟩).2 = ⟨false, "UTC0", 42⟩ :=
  c2_rejected_sync_leaves_clock "not-a-sync" ⟨false, "UTC0", 42⟩ (by decide)

/-- C3: every message `YYYY-MM-DD HH:MM:SS|tz` with zero-padded fields in the
stated ranges is accepted by `setTimeFromString`, and after the accepting
write is processed the `timeSet` flag is true and remains true under any
further sequence of writes. -/
theorem c3_wellformed_sync_accepted (y mo d h mi s : Nat) (tz : String)
    (st : ClockState) (rest : List String)
    (hy : 2023 ≤ y) (hy2 : y ≤ 2050) (hmo : 1 ≤ mo) (hmo2 : mo ≤ 12)
    (hd : 1 ≤ d) (hd2 : d ≤ 31) (hh : h ≤ 23) (hmi : mi ≤ 59) (hs : s ≤ 59) :
    (setTimeFromString (syncMsg y mo d h mi s tz) st).1 = true ∧
    (rest.foldl (fun acc m => onWrite m acc)
      (onWrite (syncMsg y mo d h mi s tz) st)).timeSet = true := by
  have hmain := setTimeFromString_syncMsg y mo d h mi s tz st hy hy2 hmo hmo2 hd hd2 hh hmi hs
  constructor
  · rw [hmain]
  · apply foldl_onWrite_timeSet
    have hlen : 0 < (syncMsg y mo d h mi s tz).length := by
      show 0 < (syncMsg y mo d h mi s tz).data.length
      rw [syncMsg_data]
      simp
    simp [onWrite, hlen, hmain]

/-- C3 witness: the design document's example message is accepted. -/
theorem c3_wellformed_sync_accepted_witness :
    (setTimeFromString (syncMsg 2025 2 26 14 15 30 "CET-1CEST,M3.5.0/2,M10.5.0/3")
      ⟨false, "", 0⟩).1 = true ∧
    (([] : List String).foldl (fun acc m => onWrite m acc)
      (onWrite (syncMsg 2025 2 26 14 15 30 "CET-1CEST,M3.5.0/2,M10.5.0/3")
        ⟨false, "", 0⟩)).timeSet = true :=
  c3_wellformed_sync_accepted 2025 2 26 14 15 30 _ _ [] (by omega) (by omega) (by omega)
    (by omega) (by omega) (by omega) (by omega) (by omega) (by omega)

/-- C4: a message lacking the `'|'` delimiter, or whose parsed year, month,
day, hour, minute or second lies outside the stated range, makes
`setTimeFromString` return `false` with the state unchanged, and the BLE
callback leaves `timeSet` at its previous value. -/
theorem c4_out_of_range_sync_rejected (msg : String) (st : ClockState)
    (h : indexOfA msg '|' < 0 ∨
      outOfRange (parseTimePart (substringA msg 0 (indexOfA msg '|').toNat))) :
    setTimeFromString msg st = (false, st) ∧ onWrite msg st = st := by
  have hmain : setTimeFromString msg st = (false, st) := by
    rcases h with h | h
    · simp [setTimeFromString, h]
    · by_cases h1 : indexOfA msg '|' < 0
      · simp [setTimeFromString, h1]
      · simp [setTimeFromString, h1, h]
  refine ⟨hmain, ?_⟩
  unfold onWrite
  split
  · simp [hmain]
  · rfl

/-- C4 witness: the design document's month-13 example is rejected. -/
theorem c4_out_of_range_sync_rejected_witness :
    setTimeFromString "2025-13-01 00:00:00|UTC" ⟨true, "CET", 7⟩ = (false, ⟨true, "CET", 7⟩) ∧
    onWrite "2025-13-01 00:00:00|UTC" ⟨true, "CET", 7⟩ = ⟨true, "CET", 7⟩ :=
  c4_out_of_range_sync_rejected "2025-13-01 00:00:00|UTC" ⟨true, "CET", 7⟩
    (Or.inr (by decide))

/-- C5: starting from an empty buffer, appending at most nine records never
triggers a flush and the count tracks the appends; appending a tenth record
triggers exactly one call to `writeBufferToSD`, after which the buffer is the
empty string and the count is zero. -/
theorem c5_flush_exactly_at_threshold (lines : List String) (sdOk : Bool) :
    (lines.length ≤ 9 →
      (appendAll sdOk lines ⟨"", 0⟩).2 = 0 ∧
      (appendAll sdOk lines ⟨"", 0⟩).1.bufferCount = lines.length) ∧
    (lines.length = 10 →
      (appendAll sdOk lines ⟨"", 0⟩).2 = 1 ∧
      (appendAll sdOk lines ⟨"", 0⟩).1 = ⟨"", 0⟩) := by
  constructor
  · intro h
    obtain ⟨h1, h2⟩ := appendAll_no_flush sdOk lines ⟨"", 0⟩
      (show (0 : Nat) + lines.length < 10 by omega)
    refine ⟨h1, ?_⟩
    rw [h2]
    show (0 : Nat) + lines.length = lines.length
    omega
  · intro h
    exact appendAll_exact sdOk lines ⟨"", 0⟩ (by decide)
      (show (0 : Nat) + lines.length = 10 by omega)

/-- C5 witness: ten concrete records flush exactly once and empty the buffer. -/
theorem c5_flush_exactly_at_threshold_witness :
    (appendAll true ["a", "b", "c", "d", "e", "f", "g", "h", "i", "j"] ⟨"", 0⟩).2 = 1 ∧
    (appendAll true ["a", "b", "c", "d", "e", "f", "g", "h", "i", "j"] ⟨"", 0⟩).1 = ⟨"", 0⟩ :=
  (c5_flush_exactly_at_threshold ["a", "b", "c", "d", "e", "f", "g", "h", "i", "j"] true).2
    (by decide)

/-- C6: after every call to `writeBufferToSD` — whether the SD open succeeds
or fails — the buffer is the empty string and the count is zero; no path
leaves a non-empty buffer or a non-zero count. -/
theorem c6_flush_always_clears (openOk : Bool) (s : BufState) :
    (writeBufferToSD openOk s).1.dataBuffer = "" ∧
    (writeBufferToSD openOk s).1.bufferCount = 0 := by
  rw [writeBufferToSD_clears]
  exact ⟨rfl, rfl⟩

/-- C7: an iteration of `loop` with `timeSet` false leaves the buffer state
untouched and its whole trace is the single 2-second wait — no channel
select, sensor init, read or append — and a read action can only occur in an
iteration whose `timeSet` is true. -/
theorem c7_no_read_while_time_unset (env : CycleEnv) (b : Bool) (s : BufState) :
    (b = false → loopStep env b s = (s, [Action.delayMs 2000])) ∧
    (∀ c, Action.read c ∈ (loopStep env b s).2 → b = true) := by
  constructor
  · rintro rfl
    rfl
  · intro c hc
    cases b with
    | true => rfl
    | false => simp [loopStep] at hc

/-- C7 witness: with the clock invalid, a concrete iteration only waits. -/
theorem c7_no_read_while_time_unset_witness :
    loopStep envC false ⟨"", 0⟩ = (⟨"", 0⟩, [Action.delayMs 2000]) :=
  (c7_no_read_while_time_unset envC false ⟨"", 0⟩).1 rfl

/-- C8: the line built after a successful read is exactly
`timestamp,sensor_index,value_0,...,value_9\n` with the 1-based position
`i + 1` as the sensor index, and every line appended by the loop has this
shape for some channel position. -/
theorem c8_record_layout :
    (∀ (dt : String) (i : Nat) (r : Nat → Nat),
      buildDataLine dt i r = specRecord dt (i + 1) ((List.range 10).map r)) ∧
    (∀ (env : CycleEnv) (b : Bool) (s : BufState) (line : String),
      Action.append line ∈ (loopStep env b s).2 →
      ∃ i, i < NUM_SENSORS ∧
        line = specRecord (getFormattedTime (env.timeNow i)) (i + 1)
          ((List.range 10).map (env.readings i))) := by
  refine ⟨buildDataLine_eq_specRecord, ?_⟩
  intro env b s line hm
  unfold loopStep at hm
  split at hm
  · simp only [List.mem_append] at hm
    rcases hm with hm | hm
    · obtain ⟨i, hi, he⟩ := runChs_append_line env _ s line hm
      exact ⟨i, List.mem_range.mp hi, by rw [he, buildDataLine_eq_specRecord]⟩
    · simp at hm
  · simp at hm

/-- C8 witness: a concrete loop iteration appends a line of the stated shape. -/
theorem c8_record_layout_witness :
    ∃ i, i < NUM_SENSORS ∧
      buildDataLine (getFormattedTime (envC.timeNow 0)) 0 (envC.readings 0) =
        specRecord (getFormattedTime (envC.timeNow i)) (i + 1)
          ((List.range 10).map (envC.readings i)) :=
  c8_record_layout.2 envC true ⟨"", 0⟩ _ (by decide)

/-- C9: if `bufferCount` equals the number of newline-terminated records in
`dataBuffer` and is below 10, this stays true after every per-channel step
and every loop iteration, and every flush the loop performs happens at
`bufferCount` exactly 10 with exactly 10 records handed to the SD card. -/
theorem c9_count_matches_records (env : CycleEnv) (b : Bool) (s : BufState)
    (hinv : bufInv s) :
    (∀ i, bufInv (perChannel env i s).1) ∧
    bufInv (loopStep env b s).1 ∧
    (∀ n bytes, Action.flush n bytes ∈ (loopStep env b s).2 →
      n = 10 ∧ recCount bytes = 10) := by
  obtain ⟨h1, h2⟩ := loopStep_inv env b s hinv
  exact ⟨fun i => (perChannel_inv env i s hinv).1, h1, h2⟩

/-- C9 witness: the invariant holds after a concrete iteration from boot. -/
theorem c9_count_matches_records_witness : bufInv (loopStep envC true ⟨"", 0⟩).1 :=
  (c9_count_matches_records envC true ⟨"", 0⟩ ⟨rfl, by decide⟩).2.1

/-- C10 counterexample: the message `2025-02-3|UTC` has a 9-character time
part — shorter than the 19-character layout — yet its truncated day field
converts to 3 (not 0) and the message is accepted, not rejected. -/
theorem c10_counterexample :
    (substringA "2025-02-3|UTC" 0 (indexOfA "2025-02-3|UTC" '|').toNat).length < 19 ∧
    (setTimeFromString "2025-02-3|UTC" ⟨false, "", 0⟩).1 = true :=
  ⟨by decide, by decide⟩

/-- C10 (amended): `setTimeFromString` is total and in-bounds on every input:
a fixed-position extraction is clamped to the source length and to the
requested width, the numeric conversion of an empty extraction is 0, and any
message whose time part has at most 8 characters — leaving the day field
empty — is rejected with the state unchanged; a longer truncated time part
may still parse in range and be accepted. -/
theorem c10_short_inputs_rejected :
    (∀ (s : String) (l r : Nat), (substringA s l r).length ≤ s.length ∧
      (l ≤ r → (substringA s l r).length ≤ r - l)) ∧
    atolA "" = 0 ∧
    (∀ (msg : String) (st : ClockState),
      (substringA msg 0 (indexOfA msg '|').toNat).length ≤ 8 →
      setTimeFromString msg st = (false, st)) := by
  refine ⟨substringA_length, rfl, ?_⟩
  intro msg st hlen
  by_cases h1 : indexOfA msg '|' < 0
  · simp [setTimeFromString, h1]
  · have hday : substringA (substringA msg 0 (indexOfA msg '|').toNat) 8 10 = ⟨[]⟩ := by
      rw [substringA_eq _ _ _ (by omega)]
      have h8 : (substringA msg 0 (indexOfA msg '|').toNat).data.length ≤ 8 := hlen
      congr 1
      rw [List.drop_eq_nil_iff, List.length_take]
      omega
    have hout : outOfRange (parseTimePart (substringA msg 0 (indexOfA msg '|').toNat)) := by
      refine Or.inr (Or.inr (Or.inr (Or.inr (Or.inl ?_))))
      show atolA (substringA (substringA msg 0 (indexOfA msg '|').toNat) 8 10) < 1
      rw [hday]
      decide
    simp [setTimeFromString, h1, hout]

/-- C10 witness: the 3-character message of the claim is rejected unscathed. -/
theorem c10_short_inputs_rejected_witness :
    setTimeFromString "1|X" ⟨false, "", 0⟩ = (false, ⟨false, "", 0⟩) :=
  c10_short_inputs_rejected.2.2 "1|X" ⟨false, "", 0⟩ (by decide)

end TimeSync
